import Mathlib

/-!
Verification of the store-details extractor (extract_stores.py).

The development shallowly embeds the Python source: page text is `List Char`,
Python dicts are association lists (`PyDict`), JSON values are the inductive
`Json`, and fallible Python code (code paths that raise and are caught) is
modelled with `Option`.  Machine-level details that the claims do not touch
(HTTP fetching, thread scheduling) are abstracted as parameters; the
completion order of the thread pool's futures is an explicit list argument.
-/

/-- The left-brace character, written via its code point. -/
def lb : Char := Char.ofNat 123

/-- The right-brace character, written via its code point. -/
def rb : Char := Char.ofNat 125

/-- The double-quote character. -/
def qc : Char := Char.ofNat 34

/-- The backslash character. -/
def bs : Char := Char.ofNat 92

/-- The left-bracket character. -/
def lbk : Char := Char.ofNat 91

/-- The right-bracket character. -/
def rbk : Char := Char.ofNat 93

/-- Helper for `strFind`: first index at or after `i` where `pat` occurs. -/
def strFindAux (pat : List Char) : List Char → Nat → Option Nat
  | [], i => if pat.isPrefixOf ([] : List Char) then some i else none
  | s@(_ :: rest), i => if pat.isPrefixOf s then some i else strFindAux pat rest (i + 1)

/-- Embedding of Python `s.find(pat)`: index of the first occurrence of
`pat` in `s`, or `none` where Python returns `-1`. -/
def strFind (s pat : List Char) : Option Nat := strFindAux pat s 0

/-- Embedding of Python `s.find(pat, start)`: the search is restricted to
`s[start:]`, the returned index is absolute. -/
def findFrom (s pat : List Char) (start : Nat) : Option Nat :=
  (strFind (s.drop start) pat).map (· + start)

/-- The primary marker of extract_stores.py line 37. -/
def pm : List Char := "\"__NEXT_DATA__\":".data

/-- The alternate marker of extract_stores.py line 42. -/
def am : List Char := "id=\"__NEXT_DATA__\"".data

/-- The closing-tag literal of extract_stores.py line 48. -/
def closeScript : List Char := "</script>".data

/-- Embedding of the character loop of extract_stores.py lines 52-77.
State: remaining text, brace depth (`brace_count`), `in_string`, `escape_next`.
Returns the number of characters consumed up to and including the closing
brace that takes the depth to zero (Python's `end_idx - start_idx`), or
`none` when the text ends first (Python falls off the loop leaving
`end_idx = start_idx`). -/
def scanBrace : List Char → Int → Bool → Bool → Option Nat
  | [], _, _, _ => none
  | _ :: rest, depth, inStr, true => (scanBrace rest depth inStr false).map (· + 1)
  | c :: rest, depth, true, false =>
    if c = bs then (scanBrace rest depth true true).map (· + 1)
    else if c = qc then (scanBrace rest depth false false).map (· + 1)
    else (scanBrace rest depth true false).map (· + 1)
  | c :: rest, depth, false, false =>
    if c = bs then (scanBrace rest depth false true).map (· + 1)
    else if c = qc then (scanBrace rest depth true false).map (· + 1)
    else if c = lb then (scanBrace rest (depth + 1) false false).map (· + 1)
    else if c = rb then
      (if depth - 1 = 0 then some 1
       else (scanBrace rest (depth - 1) false false).map (· + 1))
    else (scanBrace rest depth false false).map (· + 1)

/-- The result of the marker-location-plus-slicing stage of
`get_store_details` (lines 37-79): either no marker was found (the
`return None` at line 45), or the substring `html[start_idx:end_idx]`
that is handed to `json.loads`. -/
inductive ExtractOutcome where
  | markerNotFound
  | extracted (payload : List Char)
deriving DecidableEq

/-- Embedding of extract_stores.py lines 37-79: locate the primary marker
and brace-scan, else locate the alternate marker and slice between the next
greater-than sign and the closing script tag (Python slice semantics,
including `html[start:-1]` when the closing tag is absent). -/
def extractPayload (html : List Char) : ExtractOutcome :=
  match strFind html pm with
  | some idx =>
    match scanBrace (html.drop (idx + pm.length)) 0 false false with
    | some n => .extracted ((html.drop (idx + pm.length)).take n)
    | none => .extracted []
  | none =>
    match strFind html am with
    | none => .markerNotFound
    | some aIdx =>
      match findFrom html ['>'] aIdx with
      | some g =>
        (match findFrom html closeScript (g + 1) with
         | some e => .extracted ((html.drop (g + 1)).take (e - (g + 1)))
         | none => .extracted ((html.drop (g + 1)).take (html.length - 1 - (g + 1))))
      | none =>
        (match findFrom html closeScript 0 with
         | some e => .extracted (html.take e)
         | none => .extracted (html.take (html.length - 1)))

/-- Parsed JSON values as Python json.loads produces them.  Numbers keep
their source literal (the claims never compare or compute with numeric
values, only copy them through). -/
inductive Json where
  | null
  | bool (b : Bool)
  | num (lit : List Char)
  | str (s : List Char)
  | arr (elems : List Json)
  | obj (members : List (List Char × Json))

/-- A Python dict with string keys, as an ordered association list
(Python dicts preserve insertion order; keys are unique). -/
abbrev PyDict := List (List Char × Json)

/-- Embedding of Python dict key lookup. -/
def dictLookup : PyDict → List Char → Option Json
  | [], _ => none
  | (k, v) :: rest, key => if k = key then some v else dictLookup rest key

/-- Embedding of Python `d.get(key, dflt)`. -/
def dictGetD (d : PyDict) (key : List Char) (dflt : Json) : Json :=
  (dictLookup d key).getD dflt

/-- Embedding of Python `key in d`. -/
def dictHasKey (d : PyDict) (key : List Char) : Bool :=
  (dictLookup d key).isSome

/-- Embedding of Python `d[key] = v`: replace the value in place if the key
exists (keeping its position), else append the pair at the end. -/
def dictSet : PyDict → List Char → Json → PyDict
  | [], key, v => [(key, v)]
  | (k, w) :: rest, key, v =>
    if k = key then (key, v) :: rest else (k, w) :: dictSet rest key v

/-- True when a JSON number literal denotes zero: its mantissa (everything
before any exponent marker) contains no nonzero digit. -/
def numIsZero (lit : List Char) : Bool :=
  (lit.takeWhile (fun c => !(c = 'e' || c = 'E'))).all
    (fun c => if 49 ≤ c.toNat ∧ c.toNat ≤ 57 then false else true)

/-- Embedding of Python truthiness on JSON-derived values: None, False,
numeric zero, and empty containers/strings are falsy. -/
def pyTruthy : Json → Bool
  | .null => false
  | .bool b => b
  | .num lit => !numIsZero lit
  | .str s => !s.isEmpty
  | .arr l => !l.isEmpty
  | .obj m => !m.isEmpty

/-- JSON whitespace, the four characters json.loads skips. -/
def wsChar (c : Char) : Bool := c = ' ' || c = '\t' || c = '\n' || c = '\r'

/-- Drop leading JSON whitespace. -/
def skipWs (s : List Char) : List Char := s.dropWhile wsChar

/-- Value of a hex digit, for string escapes. -/
def hexVal (c : Char) : Option Nat :=
  if 48 ≤ c.toNat ∧ c.toNat ≤ 57 then some (c.toNat - 48)
  else if 97 ≤ c.toNat ∧ c.toNat ≤ 102 then some (c.toNat - 87)
  else if 65 ≤ c.toNat ∧ c.toNat ≤ 70 then some (c.toNat - 55)
  else none

/-- Decode a single-character JSON string escape. -/
def escChar (e : Char) : Option Char :=
  if e = qc then some qc
  else if e = bs then some bs
  else if e = '/' then some '/'
  else if e = 'b' then some (Char.ofNat 8)
  else if e = 'f' then some (Char.ofNat 12)
  else if e = 'n' then some (Char.ofNat 10)
  else if e = 'r' then some (Char.ofNat 13)
  else if e = 't' then some (Char.ofNat 9)
  else none

/-- Parse the body of a JSON string after its opening quote, returning the
decoded characters and the rest of the input after the closing quote.
Raw control characters are rejected (json.loads strict mode); a `\u`
escape decodes to its code point. -/
def parseStrBody : List Char → Option (List Char × List Char)
  | [] => none
  | c :: rest =>
    if c = qc then some ([], rest)
    else if c = bs then
      match rest with
      | 'u' :: h1 :: h2 :: h3 :: h4 :: rest2 =>
        match hexVal h1, hexVal h2, hexVal h3, hexVal h4 with
        | some a, some b, some c3, some d =>
          (parseStrBody rest2).map
            (fun p => (Char.ofNat (((a * 16 + b) * 16 + c3) * 16 + d) :: p.1, p.2))
        | _, _, _, _ => none
      | e :: rest2 =>
        match escChar e with
        | some d => (parseStrBody rest2).map (fun p => (d :: p.1, p.2))
        | none => none
      | [] => none
    else if c.toNat < 32 then none
    else (parseStrBody rest).map (fun p => (c :: p.1, p.2))

/-- Parse a JSON number literal, returning the consumed literal and the
rest: optional minus sign, integer part without superfluous leading zero,
optional fraction, optional exponent. -/
def parseNum (s : List Char) : Option (List Char × List Char) :=
  let (sgn, s1) :=
    match s with
    | c :: r => if c = '-' then ([c], r) else (([] : List Char), s)
    | [] => ([], [])
  let intPart := s1.takeWhile Char.isDigit
  let s2 := s1.dropWhile Char.isDigit
  if intPart = [] then none
  else if 2 ≤ intPart.length ∧ intPart.headD '0' = '0' then none
  else
    let (fracPart, s3) :=
      match s2 with
      | '.' :: r =>
        let ds := r.takeWhile Char.isDigit
        if ds = [] then (([] : List Char), s2) else ('.' :: ds, r.dropWhile Char.isDigit)
      | _ => ([], s2)
    if s2 ≠ [] ∧ s2.headD ' ' = '.' ∧ fracPart = [] then none
    else
      let (expPart, s4) :=
        match s3 with
        | e :: r =>
          if e = 'e' ∨ e = 'E' then
            let (sg, r2) :=
              match r with
              | c :: r2 => if c = '+' ∨ c = '-' then ([c], r2) else (([] : List Char), r)
              | [] => ([], [])
            let ds := r2.takeWhile Char.isDigit
            if ds = [] then (([] : List Char), s3)
            else (e :: (sg ++ ds), r2.dropWhile Char.isDigit)
          else ([], s3)
        | [] => ([], s3)
      if s3 ≠ [] ∧ (s3.headD ' ' = 'e' ∨ s3.headD ' ' = 'E') ∧ expPart = [] then none
      else some (sgn ++ intPart ++ fracPart ++ expPart, s4)

/-- The three states of the recursive-descent JSON parser: at a value, in
an object member list, in an array element list. -/
inductive PTask where
  | val
  | members (acc : PyDict) (first : Bool)
  | elems (acc : List Json) (first : Bool)

/-- Fuel-indexed recursive-descent parser mirroring json.loads, written as
a single function structurally recursive on the fuel so that it evaluates
by reduction.  `val` parses one JSON value; `members` parses an object
body after the opening brace (leading whitespace skipped, `first` true
before any member, so an empty object is accepted but a trailing comma is
not, duplicate keys overwriting like Python dicts); `elems` likewise for
arrays.  The top-level wrapper supplies fuel exceeding the input length;
every nesting level consumes input, so the fuel suffices. -/
def parseGo : Nat → PTask → List Char → Option (Json × List Char)
  | 0, _, _ => none
  | fuel + 1, .val, s =>
    (match s with
     | [] => none
     | c :: rest =>
       if c = lb then parseGo fuel (.members [] true) (skipWs rest)
       else if c = lbk then parseGo fuel (.elems [] true) (skipWs rest)
       else if c = qc then (parseStrBody rest).map (fun p => (Json.str p.1, p.2))
       else
         match s with
         | 't' :: 'r' :: 'u' :: 'e' :: r => some (Json.bool true, r)
         | 'f' :: 'a' :: 'l' :: 's' :: 'e' :: r => some (Json.bool false, r)
         | 'n' :: 'u' :: 'l' :: 'l' :: r => some (Json.null, r)
         | _ => (parseNum s).map (fun p => (Json.num p.1, p.2)))
  | fuel + 1, .members acc first, s =>
    (match s with
     | [] => none
     | c :: rest =>
       if first ∧ c = rb then some (Json.obj acc, rest)
       else if c = qc then
         match parseStrBody rest with
         | none => none
         | some (key, s2) =>
           match skipWs s2 with
           | ':' :: s3 =>
             (match parseGo fuel .val (skipWs s3) with
              | none => none
              | some (v, s4) =>
                match skipWs s4 with
                | ',' :: s5 => parseGo fuel (.members (dictSet acc key v) false) (skipWs s5)
                | d :: s5 =>
                  if d = rb then some (Json.obj (dictSet acc key v), s5) else none
                | [] => none)
           | _ => none
       else none)
  | fuel + 1, .elems acc first, s =>
    (match s with
     | [] => none
     | c :: _ =>
       if first ∧ c = rbk then some (Json.arr acc.reverse, s.tail)
       else
         match parseGo fuel .val s with
         | none => none
         | some (v, s2) =>
           match skipWs s2 with
           | ',' :: s3 => parseGo fuel (.elems (v :: acc) false) (skipWs s3)
           | d :: s3 => if d = rbk then some (Json.arr (v :: acc).reverse, s3) else none
           | [] => none)

/-- Parse one JSON value with the given fuel. -/
def parseVal (fuel : Nat) (s : List Char) : Option (Json × List Char) :=
  parseGo fuel .val s

/-- Embedding of `json.loads` (line 80): parse exactly one JSON document
with surrounding whitespace; `none` where Python raises JSONDecodeError. -/
def jsonLoads (s : List Char) : Option Json :=
  match parseVal (s.length + 1) (skipWs s) with
  | some (v, rest) => if skipWs rest = [] then some v else none
  | none => none

/-- Key constant: locationId. -/
def kLocationId : List Char := "locationId".data

/-- Key constant: publicName. -/
def kPublicName : List Char := "publicName".data

/-- Key constant: phoneNumber. -/
def kPhoneNumber : List Char := "phoneNumber".data

/-- Key constant: address1. -/
def kAddress1 : List Char := "address1".data

/-- Key constant: address2. -/
def kAddress2 : List Char := "address2".data

/-- Key constant: address3. -/
def kAddress3 : List Char := "address3".data

/-- Key constant: city. -/
def kCity : List Char := "city".data

/-- Key constant: state. -/
def kState : List Char := "state".data

/-- Key constant: postcode. -/
def kPostcode : List Char := "postcode".data

/-- Key constant: latitude. -/
def kLatitude : List Char := "latitude".data

/-- Key constant: longitude. -/
def kLongitude : List Char := "longitude".data

/-- Key constant: tradingHours. -/
def kTradingHours : List Char := "tradingHours".data

/-- Key constant: typename (output key of line 101). -/
def kTypename : List Char := "typename".data

/-- Key constant: __typename (source key read at line 101). -/
def kTypenameSrc : List Char := "__typename".data

/-- Key constant: url (output key of line 102). -/
def kUrl : List Char := "url".data

/-- Key constant: props. -/
def kProps : List Char := "props".data

/-- Key constant: pageProps. -/
def kPageProps : List Char := "pageProps".data

/-- Key constant: location. -/
def kLocation : List Char := "location".data

/-- Key constant: weekDay. -/
def kWeekDay : List Char := "weekDay".data

/-- Embedding of `location.get(k)` with Python's `None` default. -/
def locGet (location : PyDict) (k : List Char) : Json :=
  (dictLookup location k).getD Json.null

/-- Embedding of the `store_data` construction of extract_stores.py
lines 88-103: the flat record, with `None` (here `Json.null`) for every
field absent from the location payload, `typename` read from the source
key `__typename`, and the fetched URL stored under the key `url`. -/
def buildRecord (location : PyDict) (url : List Char) : PyDict :=
  [(kLocationId, locGet location kLocationId),
   (kPublicName, locGet location kPublicName),
   (kPhoneNumber, locGet location kPhoneNumber),
   (kAddress1, locGet location kAddress1),
   (kAddress2, locGet location kAddress2),
   (kAddress3, locGet location kAddress3),
   (kCity, locGet location kCity),
   (kState, locGet location kState),
   (kPostcode, locGet location kPostcode),
   (kLatitude, locGet location kLatitude),
   (kLongitude, locGet location kLongitude),
   (kTradingHours, locGet location kTradingHours),
   (kTypename, locGet location kTypenameSrc),
   (kUrl, Json.str url)]

/-- The keys of every record `buildRecord` produces, in construction order. -/
def schemaKeys : List (List Char) :=
  [kLocationId, kPublicName, kPhoneNumber, kAddress1, kAddress2, kAddress3,
   kCity, kState, kPostcode, kLatitude, kLongitude, kTradingHours, kTypename, kUrl]

/-- The thirteen copied fields as (output key, source key) pairs;
the fourteenth field `url` is the fetched URL, not copied from the payload. -/
def copiedFields : List (List Char × List Char) :=
  [(kLocationId, kLocationId), (kPublicName, kPublicName),
   (kPhoneNumber, kPhoneNumber), (kAddress1, kAddress1), (kAddress2, kAddress2),
   (kAddress3, kAddress3), (kCity, kCity), (kState, kState),
   (kPostcode, kPostcode), (kLatitude, kLatitude), (kLongitude, kLongitude),
   (kTradingHours, kTradingHours), (kTypename, kTypenameSrc)]

/-- Embedding of Python `j.get(k, dflt)` on a value of unknown type:
`none` models the AttributeError a non-dict raises (caught by the generic
handler at lines 113-115). -/
def pyGetAttr (j : Json) (k : List Char) (dflt : Json) : Option Json :=
  match j with
  | .obj d => some (dictGetD d k dflt)
  | _ => none

/-- The possible results of `get_store_details` once the page text is in
hand, one constructor per code path that produces a return:
`noMarker` is the `return None` of line 45, `jsonError` the JSONDecodeError
handler of lines 110-112, `exnError` the generic handler of lines 113-115,
`noLocation` the `return None` of line 86, and `record` the dict of line 105. -/
inductive DetailsOutcome where
  | noMarker
  | jsonError
  | exnError
  | noLocation
  | record (r : PyDict)

/-- Embedding of extract_stores.py lines 36-105 from the point where the
page text is available: marker location and slicing, `json.loads`, the
`props.pageProps.location` navigation of line 83, the falsiness check of
line 85, and the record construction. -/
def getStoreDetails (html url : List Char) : DetailsOutcome :=
  match extractPayload html with
  | .markerNotFound => .noMarker
  | .extracted s =>
    match jsonLoads s with
    | none => .jsonError
    | some data =>
      match pyGetAttr data kProps (Json.obj []) with
      | none => .exnError
      | some props =>
        match pyGetAttr props kPageProps (Json.obj []) with
        | none => .exnError
        | some pp =>
          match pyGetAttr pp kLocation (Json.obj []) with
          | none => .exnError
          | some location =>
            if pyTruthy location then
              match location with
              | .obj d => .record (buildRecord d url)
              | _ => .exnError
            else .noLocation

/-- The `day_order` mapping of extract_stores.py lines 120-128. -/
def dayOrder : List (List Char × Nat) :=
  [("MONDAY".data, 0), ("TUESDAY".data, 1), ("WEDNESDAY".data, 2),
   ("THURSDAY".data, 3), ("FRIDAY".data, 4), ("SATURDAY".data, 5),
   ("SUNDAY".data, 6)]

/-- Lookup in `day_order`. -/
def dayLookup : List (List Char × Nat) → List Char → Option Nat
  | [], _ => none
  | (k, v) :: rest, s => if k = s then some v else dayLookup rest s

/-- Embedding of the sort key of line 131, `day_order.get(x.get('weekDay',
''), 7)`, evaluated on the entry `x`.  A non-dict entry has no `.get`
(AttributeError) and an unhashable `weekDay` value (list or dict) cannot
index `day_order` (TypeError); both raise, modelled as `none`.  Any other
non-canonical value, including a missing `weekDay`, gets rank 7. -/
def entryRank (e : Json) : Option Nat :=
  match e with
  | .obj d =>
    (match dictGetD d kWeekDay (Json.str []) with
     | .str s => some ((dayLookup dayOrder s).getD 7)
     | .null => some 7
     | .bool _ => some 7
     | .num _ => some 7
     | .arr _ => none
     | .obj _ => none)
  | _ => none

/-- The rank an entry sorts by once every rank is defined. -/
def rankD (e : Json) : Nat := (entryRank e).getD 7

/-- The ordering relation Python's key-based stable sort uses on entries. -/
def rankLe (a b : Json) : Prop := rankD a ≤ rankD b

instance : DecidableRel rankLe := fun a b => Nat.decLe (rankD a) (rankD b)

instance : IsTotal Json rankLe := ⟨fun a b => Nat.le_total (rankD a) (rankD b)⟩

instance : IsTrans Json rankLe := ⟨fun _ _ _ => Nat.le_trans⟩

/-- Embedding of `sorted(entries, key=...)` at lines 129-132.  Python first
evaluates the key for every element (raising if any key computation
raises, modelled by the guard) and then stable-sorts by key; a stable sort
of a list under a total preorder is unique, so `List.insertionSort`, which
inserts each element before the equal-key elements that follow it in the
input, produces exactly Timsort's output. -/
def sortHoursCore (entries : List Json) : Option (List Json) :=
  if entries.all (fun e => (entryRank e).isSome) then
    some (entries.insertionSort rankLe)
  else none

/-- Embedding of `sort_trading_hours` (extract_stores.py lines 117-133).
`some` is the returned dict; `none` models an escaped exception (caught by
the caller in `main`, lines 180-182).  The guard of line 119 is falsy for
an empty dict, a missing key, or a falsy value; a truthy non-list value
raises when `sorted` iterates it or applies the key function. -/
def sortTradingHours (d : PyDict) : Option PyDict :=
  if d.isEmpty = false ∧ dictHasKey d kTradingHours = true
      ∧ pyTruthy (dictGetD d kTradingHours Json.null) = true then
    match dictLookup d kTradingHours with
    | some (Json.arr entries) =>
      (sortHoursCore entries).map (fun es => dictSet d kTradingHours (Json.arr es))
    | _ => none
  else some d

/-- The record-level normalization applied to a location payload: the
field extraction of lines 88-103 followed by the trading-hours sort the
caller applies at line 171. -/
def normalizeRecord (location : PyDict) (url : List Char) : Option PyDict :=
  sortTradingHours (buildRecord location url)

/-- Lexicographic comparison of strings by code point, Python's `<=` on
`str` restricted to what the final sort compares. -/
def strLe : List Char → List Char → Bool
  | [], _ => true
  | _ :: _, [] => false
  | a :: s, b :: t =>
    if a.toNat < b.toNat then true
    else if b.toNat < a.toNat then false
    else strLe s t

/-- The value the sort key of line 191 extracts: `x.get('locationId', '')`.
Records always contain the key, so the default only covers hand-made dicts. -/
def locKey (d : PyDict) : Json := dictGetD d kLocationId (Json.str [])

/-- Whether a JSON value is a string. -/
def isStrJson : Json → Bool
  | .str _ => true
  | _ => false

/-- The string content of the sort key (defined only where `isStrJson`
holds of `locKey`; the guard in `pySortedStores` ensures that). -/
def keyStr (d : PyDict) : List Char :=
  match locKey d with
  | .str s => s
  | _ => []

/-- The ordering the final sort uses on records with string keys. -/
def locLe (a b : PyDict) : Prop := strLe (keyStr a) (keyStr b) = true

instance : DecidableRel locLe :=
  fun a b => instDecidableEqBool (strLe (keyStr a) (keyStr b)) true

/-- Embedding of `sorted(all_stores, key=lambda x: x.get('locationId', ''))`
at line 191.  Python's stable sort compares keys with `<`; comparing `None`
(a null locationId) or any other non-string key with a string raises
TypeError, which is uncaught in `main` and aborts the run — with two or
more elements Timsort's run detection compares every adjacent pair, so any
non-string key in the modelled domain (strings and nulls) raises.  `none`
models that crash.  With at most one element no comparison happens. -/
def pySortedStores (stores : List PyDict) : Option (List PyDict) :=
  if stores.length ≤ 1 || stores.all (fun d => isStrJson (locKey d)) then
    some (stores.insertionSort locLe)
  else none

/-- The three ways the sitemap input can present itself to `main`:
the file is missing (line 145), ElementTree raises on parse (lines 23-25),
or parsing succeeds with the given list of `loc` texts. -/
inductive SitemapSrc where
  | missing
  | malformed
  | parsed (urls : List (List Char))

/-- Embedding of `extract_urls_from_sitemap` (lines 14-25): any parse
failure is caught, a diagnostic goes to stderr, and the empty list is
returned; on success the `loc` texts are returned in document order. -/
def extractUrlsFromSitemap : SitemapSrc → List (List Char)
  | .parsed urls => urls
  | _ => []

/-- One URL's processing at the completion boundary of lines 169-171:
`fetch` abstracts `get_store_details` (which catches all its exceptions and
returns a dict or `None`), then `sort_trading_hours` runs inside the `try`
of line 168, so an exception there (modelled by `none`) also records a
failure. -/
def processUrl (fetch : List Char → Option PyDict) (u : List Char) : Option PyDict :=
  match fetch u with
  | none => none
  | some d => sortTradingHours d

/-- The observable outcome of a run of `main`: process exit status, the
JSON array printed to stdout (`none` when the run ends before printing),
and the success/failure counts of the summary printed to stderr. -/
structure RunResult where
  exitCode : Nat
  stdoutJson : Option (List PyDict)
  okCount : Nat
  errCount : Nat

/-- Embedding of `main` (extract_stores.py lines 135-192), with I/O
abstracted: `fetch` stands for the network plus `get_store_details`, and
`completed` is the order in which `as_completed` yields the (index, url)
pairs — any permutation of `enumerate(urls, 1)`.  A missing sitemap exits 1
before printing; a malformed one yields an empty URL list; each completed
future contributes a store or a failure; the final sort either prints the
sorted array with exit 0 or raises (uncaught TypeError, exit 1, nothing on
stdout). -/
def mainRun (src : SitemapSrc) (fetch : List Char → Option PyDict)
    (completed : List (Nat × List Char)) : RunResult :=
  match src with
  | .missing => ⟨1, none, 0, 0⟩
  | _ =>
    let stores := completed.filterMap (fun p => processUrl fetch p.2)
    let errs := completed.filterMap
      (fun p => if (processUrl fetch p.2).isSome then none else some p)
    ⟨if (pySortedStores stores).isSome then 0 else 1,
     pySortedStores stores, stores.length, errs.length⟩

/-- Spec example input: trading hours listed SUNDAY, MONDAY, WEDNESDAY. -/
def hoursEx : List Json :=
  [Json.obj [(kWeekDay, Json.str "SUNDAY".data)],
   Json.obj [(kWeekDay, Json.str "MONDAY".data)],
   Json.obj [(kWeekDay, Json.str "WEDNESDAY".data)]]

/-- A record whose locationId is null (Python None). -/
def recNull : PyDict := [(kLocationId, Json.null)]

/-- A record whose locationId is the string A. -/
def recStrA : PyDict := [(kLocationId, Json.str ['A'])]

/-- A record whose locationId is the string B. -/
def recStrB : PyDict := [(kLocationId, Json.str ['B'])]

/-- Stub for get_store_details: url a yields the null-keyed record, any
other url the A-keyed one. -/
def fetchMixed (u : List Char) : Option PyDict :=
  if u = ['a'] then some recNull else some recStrA

/-- Stub for get_store_details yielding string-keyed records only. -/
def fetchStrs (u : List Char) : Option PyDict :=
  if u = ['a'] then some recStrB else some recStrA

/-- A location payload with an unsorted trading-hours list. -/
def locEx : PyDict :=
  [(kLocationId, Json.str ['1']), (kTradingHours, Json.arr hoursEx)]

/-- The normalized record of `locEx`, by evaluation. -/
def recEx : PyDict := (normalizeRecord locEx ['u']).getD []

/-- A dict with one other field besides trading hours, for the frame
theorem. -/
def dEx : PyDict := [(kCity, Json.str ['x']), (kTradingHours, Json.arr hoursEx)]

/-- The dict `dEx` after the trading-hours sort, by evaluation. -/
def dExSorted : PyDict := (sortTradingHours dEx).getD []

/-- Character-level grammar of the text the scanner walks.  `Gram 0 s`:
`s` is the body of a string literal (any characters, with every quote or
backslash occurring only via an escape pair).  `Gram 1 s`: `s` is the body
of a brace-balanced object (plain characters, complete string literals,
and complete nested `Gram 1` objects in braces).  Every well-formed JSON
object is `lb :: b ++ [rb]` with `Gram 1 b`: its strings may contain
braces, escaped quotes and escaped backslashes, and outside strings JSON
has no quotes or backslashes except those opening strings. -/
inductive Gram : Nat → List Char → Prop where
  | strNil : Gram 0 []
  | strChr {c : Char} {s : List Char} (h1 : c ≠ qc) (h2 : c ≠ bs)
      (h : Gram 0 s) : Gram 0 (c :: s)
  | strEsc {c : Char} {s : List Char} (h : Gram 0 s) : Gram 0 (bs :: c :: s)
  | objNil : Gram 1 []
  | objChr {c : Char} {s : List Char} (h1 : c ≠ lb) (h2 : c ≠ rb)
      (h3 : c ≠ qc) (h4 : c ≠ bs) (h : Gram 1 s) : Gram 1 (c :: s)
  | objStr {s b : List Char} (hs : Gram 0 s) (hb : Gram 1 b) :
      Gram 1 (qc :: s ++ qc :: b)
  | objObj {o b : List Char} (ho : Gram 1 o) (hb : Gram 1 b) :
      Gram 1 (lb :: o ++ rb :: b)

lemma qc_ne_bs : qc ≠ bs := by decide

lemma lb_ne_bs : lb ≠ bs := by decide

lemma lb_ne_qc : lb ≠ qc := by decide

lemma rb_ne_bs : rb ≠ bs := by decide

lemma rb_ne_qc : rb ≠ qc := by decide

lemma rb_ne_lb : rb ≠ lb := by decide

lemma scanBrace_esc (c : Char) (rest : List Char) (d : Int) (inStr : Bool) :
    scanBrace (c :: rest) d inStr true = (scanBrace rest d inStr false).map (· + 1) := by
  cases inStr <;> rfl

lemma scanBrace_str_bs (rest : List Char) (d : Int) :
    scanBrace (bs :: rest) d true false = (scanBrace rest d true true).map (· + 1) := by
  simp [scanBrace]

lemma scanBrace_str_qc (rest : List Char) (d : Int) :
    scanBrace (qc :: rest) d true false = (scanBrace rest d false false).map (· + 1) := by
  simp [scanBrace, qc_ne_bs]

lemma scanBrace_str_chr (c : Char) (rest : List Char) (d : Int)
    (h1 : c ≠ qc) (h2 : c ≠ bs) :
    scanBrace (c :: rest) d true false = (scanBrace rest d true false).map (· + 1) := by
  simp [scanBrace, h1, h2]

lemma scanBrace_obj_qc (rest : List Char) (d : Int) :
    scanBrace (qc :: rest) d false false = (scanBrace rest d true false).map (· + 1) := by
  simp [scanBrace, qc_ne_bs]

lemma scanBrace_obj_open (rest : List Char) (d : Int) :
    scanBrace (lb :: rest) d false false = (scanBrace rest (d + 1) false false).map (· + 1) := by
  simp [scanBrace, lb_ne_bs, lb_ne_qc]

lemma scanBrace_obj_close (rest : List Char) (d : Int) :
    scanBrace (rb :: rest) d false false =
      (if d - 1 = 0 then some 1 else (scanBrace rest (d - 1) false false).map (· + 1)) := by
  simp [scanBrace, rb_ne_bs, rb_ne_qc, rb_ne_lb]

lemma scanBrace_obj_chr (c : Char) (rest : List Char) (d : Int)
    (h1 : c ≠ lb) (h2 : c ≠ rb) (h3 : c ≠ qc) (h4 : c ≠ bs) :
    scanBrace (c :: rest) d false false = (scanBrace rest d false false).map (· + 1) := by
  simp [scanBrace, h1, h2, h3, h4]

lemma beq00 : ((0 : Nat) == 0) = true := rfl

lemma beq10 : ((1 : Nat) == 0) = false := rfl

/-- Walking grammatical text at depth at least one consumes exactly the
text: the scanner neither stops inside it (no closing brace inside brings
the depth to zero) nor mistakes its string contents for structure. -/
lemma scan_gram {k : Nat} {s : List Char} (h : Gram k s) :
    ∀ (d : Int) (t : List Char), 1 ≤ d →
      scanBrace (s ++ t) d (k == 0) false
        = (scanBrace t d (k == 0) false).map (· + s.length) := by
  induction h with
  | strNil =>
    intro d t _
    simp only [beq00, List.nil_append, List.length_nil]
    cases hsc : scanBrace t d true false <;> simp [hsc]
  | strChr h1 h2 _ ih =>
    intro d t hd
    simp only [beq00] at ih ⊢
    simp only [List.cons_append]
    rw [scanBrace_str_chr _ _ _ h1 h2, ih d t hd]
    cases hsc : scanBrace t d true false <;> simp [hsc] <;> omega
  | strEsc _ ih =>
    intro d t hd
    simp only [beq00] at ih ⊢
    simp only [List.cons_append]
    rw [scanBrace_str_bs, scanBrace_esc, ih d t hd]
    cases hsc : scanBrace t d true false <;> simp [hsc] <;> omega
  | objNil =>
    intro d t _
    simp only [beq10, List.nil_append, List.length_nil]
    cases hsc : scanBrace t d false false <;> simp [hsc]
  | objChr h1 h2 h3 h4 _ ih =>
    intro d t hd
    simp only [beq10] at ih ⊢
    simp only [List.cons_append]
    rw [scanBrace_obj_chr _ _ _ h1 h2 h3 h4, ih d t hd]
    cases hsc : scanBrace t d false false <;> simp [hsc] <;> omega
  | objStr _ _ ihs ihb =>
    intro d t hd
    simp only [beq00] at ihs
    simp only [beq10] at ihb ⊢
    simp only [List.cons_append, List.append_assoc]
    rw [scanBrace_obj_qc, ihs d _ hd, scanBrace_str_qc, ihb d t hd]
    cases hsc : scanBrace t d false false <;> simp [hsc] <;> omega
  | objObj _ _ iho ihb =>
    intro d t hd
    simp only [beq10] at iho ihb ⊢
    simp only [List.cons_append, List.append_assoc]
    rw [scanBrace_obj_open, iho (d + 1) _ (by omega), scanBrace_obj_close,
      if_neg (by omega), show d + 1 - 1 = d from by ring, ihb d t hd]
    cases hsc : scanBrace t d false false <;> simp [hsc] <;> omega

/-- The scanner started at depth zero on a grammatical object consumes
exactly the object: the opening brace, its body, and the matching closing
brace. -/
lemma scanBrace_obj_top (body suf : List Char) (hb : Gram 1 body) :
    scanBrace ((lb :: body ++ [rb]) ++ suf) 0 false false = some (body.length + 2) := by
  have h := scan_gram hb 1 (rb :: suf) (by omega)
  simp only [beq10] at h
  simp only [List.cons_append, List.append_assoc, List.nil_append]
  rw [scanBrace_obj_open, show (0 : Int) + 1 = 1 from rfl, h, scanBrace_obj_close,
    if_pos (by omega)]
  show some ((1 + body.length) + 1) = some (body.length + 2)
  exact congrArg some (by omega)

lemma strLe_total : ∀ s t : List Char, strLe s t = true ∨ strLe t s = true
  | [], _ => Or.inl rfl
  | _ :: _, [] => Or.inr rfl
  | a :: s, b :: t => by
    simp only [strLe]
    by_cases h1 : a.toNat < b.toNat
    · exact Or.inl (by rw [if_pos h1])
    · by_cases h2 : b.toNat < a.toNat
      · exact Or.inr (by rw [if_pos h2])
      · rcases strLe_total s t with h | h
        · exact Or.inl (by rw [if_neg h1, if_neg h2]; exact h)
        · exact Or.inr (by rw [if_neg h2, if_neg h1]; exact h)

lemma strLe_trans : ∀ {s t u : List Char},
    strLe s t = true → strLe t u = true → strLe s u = true
  | [], _, _, _, _ => rfl
  | _ :: _, [], _, hst, _ => by simp [strLe] at hst
  | _ :: _, _ :: _, [], _, htu => by simp [strLe] at htu
  | a :: s, b :: t, c :: u, hst, htu => by
    simp only [strLe] at hst htu ⊢
    by_cases h1 : a.toNat < b.toNat
    · by_cases h2 : b.toNat < c.toNat
      · rw [if_pos (show a.toNat < c.toNat by omega)]
      · rw [if_neg h2] at htu
        by_cases h2b : c.toNat < b.toNat
        · rw [if_pos h2b] at htu
          exact absurd htu (by simp)
        · rw [if_pos (show a.toNat < c.toNat by omega)]
    · rw [if_neg h1] at hst
      by_cases h1b : b.toNat < a.toNat
      · rw [if_pos h1b] at hst
        exact absurd hst (by simp)
      · rw [if_neg h1b] at hst
        by_cases h2 : b.toNat < c.toNat
        · rw [if_pos (show a.toNat < c.toNat by omega)]
        · rw [if_neg h2] at htu
          by_cases h2b : c.toNat < b.toNat
          · rw [if_pos h2b] at htu
            exact absurd htu (by simp)
          · rw [if_neg h2b] at htu
            rw [if_neg (show ¬ a.toNat < c.toNat by omega),
              if_neg (show ¬ c.toNat < a.toNat by omega)]
            exact strLe_trans hst htu

/-- Stability of the stable sort, in filter form: the subsequence of
elements satisfying a predicate compatible with the order (any two such
elements related, e.g. an equal-key class) is unchanged by sorting. -/
lemma filter_insertionSort {α : Type} (r : α → α → Prop) [DecidableRel r]
    (p : α → Bool) (l : List α) (hp : ∀ a b, p a = true → p b = true → r a b) :
    (l.insertionSort r).filter p = l.filter p := by
  have hpair : (l.filter p).Pairwise r :=
    List.pairwise_of_forall_mem_list (fun a ha b hb =>
      hp a b (List.of_mem_filter ha) (List.of_mem_filter hb))
  have hsub : List.Sublist (l.filter p) (l.insertionSort r) :=
    List.sublist_insertionSort hpair (List.filter_sublist l)
  have hself : (l.filter p).filter p = l.filter p :=
    List.filter_eq_self.mpr (fun a ha => List.of_mem_filter ha)
  have hsub2 : List.Sublist (l.filter p) ((l.insertionSort r).filter p) := by
    have h2 := hsub.filter p
    rwa [hself] at h2
  have hlen : (l.filter p).length = ((l.insertionSort r).filter p).length := by
    rw [← List.countP_eq_length_filter, ← List.countP_eq_length_filter]
    exact ((List.perm_insertionSort r l).countP_eq p).symm
  exact (hsub2.eq_of_length hlen).symm

/-- C3: for every list of trading-hours entries on which the sort key is
defined, `sort_trading_hours` stable-sorts the entries by the weekday rank
of `entryRank` (Monday 0 through Sunday 6, any unrecognized or absent
weekday rank 7, hence after all canonical entries): the output is a
permutation, nondecreasing in rank, and within each rank class the
original order is preserved exactly. -/
theorem trading_hours_stable_sort (entries : List Json)
    (h : ∀ e ∈ entries, (entryRank e).isSome = true) :
    ∃ out, sortHoursCore entries = some out
      ∧ out.Perm entries
      ∧ out.Pairwise rankLe
      ∧ ∀ r : Nat, out.filter (fun e => rankD e == r)
          = entries.filter (fun e => rankD e == r) := by
  have hall : entries.all (fun e => (entryRank e).isSome) = true := List.all_eq_true.mpr h
  refine ⟨entries.insertionSort rankLe, ?_, List.perm_insertionSort _ _, ?_, ?_⟩
  · simp [sortHoursCore, hall]
  · exact List.sorted_insertionSort rankLe entries
  · intro r
    exact filter_insertionSort rankLe (fun e => rankD e == r) entries
      (fun a b ha hb => by
        have h1 : rankD a = r := by simpa using ha
        have h2 : rankD b = r := by simpa using hb
        unfold rankLe
        omega)

/-- Witness for C3 at the spec's example: SUNDAY, MONDAY, WEDNESDAY. -/
theorem trading_hours_stable_sort_witness :
    (∀ e ∈ hoursEx, (entryRank e).isSome = true)
  ∧ (∃ out, sortHoursCore hoursEx = some out
      ∧ out.Perm hoursEx
      ∧ out.Pairwise rankLe
      ∧ ∀ r : Nat, out.filter (fun e => rankD e == r)
          = hoursEx.filter (fun e => rankD e == r)) :=
  ⟨by decide, trading_hours_stable_sort hoursEx (by decide)⟩

lemma dictLookup_dictSet_self (d : PyDict) (k : List Char) (v : Json) :
    dictLookup (dictSet d k v) k = some v := by
  induction d with
  | nil => simp [dictSet, dictLookup]
  | cons p rest ih =>
    obtain ⟨k2, v2⟩ := p
    by_cases h : k2 = k
    · simp [dictSet, dictLookup, h]
    · simp [dictSet, dictLookup, h, ih]

lemma dictLookup_dictSet_ne (d : PyDict) (k v) (k2 : List Char) (h : k2 ≠ k) :
    dictLookup (dictSet d k v) k2 = dictLookup d k2 := by
  have h' : ¬ k = k2 := fun hh => h hh.symm
  induction d with
  | nil => simp [dictSet, dictLookup, h']
  | cons p rest ih =>
    obtain ⟨k3, v3⟩ := p
    by_cases h3 : k3 = k
    · subst h3
      simp [dictSet, dictLookup, h']
    · simp [dictSet, dictLookup, h3, ih]

lemma dictSet_map_fst (d : PyDict) (k v) (h : dictHasKey d k = true) :
    (dictSet d k v).map Prod.fst = d.map Prod.fst := by
  induction d with
  | nil => simp [dictHasKey, dictLookup] at h
  | cons p rest ih =>
    obtain ⟨k2, v2⟩ := p
    by_cases h2 : k2 = k
    · simp [dictSet, h2]
    · have hh : dictHasKey rest k = true := by
        simpa [dictHasKey, dictLookup, h2] using h
      simp [dictSet, h2, ih hh]

lemma dictSet_of_lookup_eq (d : PyDict) (k v) (h : dictLookup d k = some v) :
    dictSet d k v = d := by
  induction d with
  | nil => simp [dictLookup] at h
  | cons p rest ih =>
    obtain ⟨k2, v2⟩ := p
    by_cases h2 : k2 = k
    · subst h2
      simp [dictLookup] at h
      simp [dictSet, h]
    · simp [dictLookup, h2] at h
      simp [dictSet, h2, ih h]

lemma dictSet_isEmpty (d : PyDict) (k v) : (dictSet d k v).isEmpty = false := by
  cases d with
  | nil => rfl
  | cons p rest =>
    obtain ⟨k2, v2⟩ := p
    by_cases h : k2 = k <;> simp [dictSet, h]

/-- C10: `sort_trading_hours` only ever touches the tradingHours field:
whenever it returns a record, that record has the same keys in the same
order and the same value at every other key; and when the tradingHours
field is missing, null, or the empty list, the record comes back untouched
(and no exception occurs). -/
theorem sort_trading_hours_frame (d : PyDict) :
    (∀ d2, sortTradingHours d = some d2 →
        d2.map Prod.fst = d.map Prod.fst
        ∧ ∀ k, k ≠ kTradingHours → dictLookup d2 k = dictLookup d k)
  ∧ ((dictLookup d kTradingHours = none ∨ dictLookup d kTradingHours = some Json.null
        ∨ dictLookup d kTradingHours = some (Json.arr [])) → sortTradingHours d = some d) := by
  constructor
  · intro d2 h2
    by_cases hc : d.isEmpty = false ∧ dictHasKey d kTradingHours = true
        ∧ pyTruthy (dictGetD d kTradingHours Json.null) = true
    · rw [sortTradingHours, if_pos hc] at h2
      cases hl : dictLookup d kTradingHours with
      | none =>
        rw [hl] at h2
        exact absurd h2 (by simp)
      | some j =>
        rw [hl] at h2
        cases j with
        | arr entries =>
          have h2r : (sortHoursCore entries).map
              (fun es => dictSet d kTradingHours (Json.arr es)) = some d2 := h2
          cases hs : sortHoursCore entries with
          | none =>
            rw [hs] at h2r
            exact absurd h2r (by simp)
          | some es =>
            rw [hs] at h2r
            have h2e : some (dictSet d kTradingHours (Json.arr es)) = some d2 := h2r
            have hd2 : d2 = dictSet d kTradingHours (Json.arr es) :=
              (Option.some.inj h2e).symm
            subst hd2
            exact ⟨dictSet_map_fst d _ _ hc.2.1,
              fun k hk => dictLookup_dictSet_ne d _ _ k hk⟩
        | null => exact absurd h2 (by simp)
        | bool b => exact absurd h2 (by simp)
        | num lit => exact absurd h2 (by simp)
        | str s => exact absurd h2 (by simp)
        | obj m => exact absurd h2 (by simp)
    · rw [sortTradingHours, if_neg hc] at h2
      have hd2 : d2 = d := (Option.some.inj h2).symm
      subst hd2
      exact ⟨rfl, fun k _ => rfl⟩
  · intro hcase
    have hc : ¬ (d.isEmpty = false ∧ dictHasKey d kTradingHours = true
        ∧ pyTruthy (dictGetD d kTradingHours Json.null) = true) := by
      rcases hcase with h | h | h
      · rintro ⟨-, hk, -⟩
        rw [dictHasKey, h] at hk
        simp at hk
      · rintro ⟨-, -, ht⟩
        rw [dictGetD, h] at ht
        simp [pyTruthy] at ht
      · rintro ⟨-, -, ht⟩
        rw [dictGetD, h] at ht
        simp [pyTruthy] at ht
    rw [sortTradingHours, if_neg hc]

/-- Witness for C10: a record with a city field and unsorted trading
hours keeps its keys and its city; a record without the tradingHours key
is returned unchanged. -/
theorem sort_trading_hours_frame_witness :
    (dExSorted.map Prod.fst = dEx.map Prod.fst
      ∧ ∀ k, k ≠ kTradingHours → dictLookup dExSorted k = dictLookup dEx k)
  ∧ sortTradingHours recNull = some recNull :=
  ⟨(sort_trading_hours_frame dEx).1 dExSorted (by rfl),
   (sort_trading_hours_frame recNull).2 (Or.inl (by rfl))⟩

/-- C9: the normalizer is idempotent at the record level.  A successfully
normalized record — field extraction followed by the trading-hours sort —
is a fixed point of the trading-hours sort: running the normalization pass
again on its own output returns the output byte-identically. -/
theorem normalizer_idempotent (loc : PyDict) (url : List Char) (r : PyDict)
    (h : normalizeRecord loc url = some r) :
    sortTradingHours r = some r := by
  rw [normalizeRecord] at h
  by_cases hc : (buildRecord loc url).isEmpty = false
      ∧ dictHasKey (buildRecord loc url) kTradingHours = true
      ∧ pyTruthy (dictGetD (buildRecord loc url) kTradingHours Json.null) = true
  · rw [sortTradingHours, if_pos hc] at h
    cases hl : dictLookup (buildRecord loc url) kTradingHours with
    | none =>
      rw [hl] at h
      exact absurd h (by simp)
    | some j =>
      rw [hl] at h
      cases j with
      | arr entries =>
        have hmr : (sortHoursCore entries).map
            (fun es => dictSet (buildRecord loc url) kTradingHours (Json.arr es))
            = some r := h
        cases hs : sortHoursCore entries with
        | none =>
          rw [hs] at hmr
          exact absurd hmr (by simp)
        | some es =>
          rw [hs] at hmr
          have he : some (dictSet (buildRecord loc url) kTradingHours (Json.arr es))
              = some r := hmr
          have hr : r = dictSet (buildRecord loc url) kTradingHours (Json.arr es) :=
            (Option.some.inj he).symm
          have hg : entries.all (fun e => (entryRank e).isSome) = true := by
            by_contra hgn
            rw [sortHoursCore, if_neg hgn] at hs
            exact absurd hs (by simp)
          have hes : es = entries.insertionSort rankLe := by
            rw [sortHoursCore, if_pos hg] at hs
            exact (Option.some.inj hs).symm
          have hne : entries.isEmpty = false := by
            have ht := hc.2.2
            rw [dictGetD, hl] at ht
            simpa [pyTruthy] using ht
          have hlen : es.length = entries.length := by
            rw [hes]
            exact List.length_insertionSort rankLe entries
          have hesne : es.isEmpty = false := by
            cases entries with
            | nil => simp at hne
            | cons e tl =>
              cases es with
              | nil => simp at hlen
              | cons e2 tl2 => rfl
          subst hr
          rw [sortTradingHours,
            if_pos (show (dictSet (buildRecord loc url) kTradingHours
                (Json.arr es)).isEmpty = false
              ∧ dictHasKey (dictSet (buildRecord loc url) kTradingHours
                  (Json.arr es)) kTradingHours = true
              ∧ pyTruthy (dictGetD (dictSet (buildRecord loc url) kTradingHours
                  (Json.arr es)) kTradingHours Json.null) = true from
              ⟨dictSet_isEmpty _ _ _,
               by rw [dictHasKey, dictLookup_dictSet_self]; rfl,
               by rw [dictGetD, dictLookup_dictSet_self]; simpa [pyTruthy] using hesne⟩)]
          simp only [dictLookup_dictSet_self]
          have hges : es.all (fun e => (entryRank e).isSome) = true := by
            rw [List.all_eq_true] at hg ⊢
            intro e he2
            exact hg e ((List.mem_insertionSort rankLe).mp (hes ▸ he2))
          have hsorted : List.Sorted rankLe es := by
            rw [hes]
            exact List.sorted_insertionSort rankLe entries
          rw [sortHoursCore, if_pos hges, List.Sorted.insertionSort_eq hsorted]
          show some _ = some _
          exact congrArg some (dictSet_of_lookup_eq _ _ _ (dictLookup_dictSet_self _ _ _))
      | null => exact absurd h (by simp)
      | bool b => exact absurd h (by simp)
      | num lit => exact absurd h (by simp)
      | str s => exact absurd h (by simp)
      | obj m => exact absurd h (by simp)
  · rw [sortTradingHours, if_neg hc] at h
    have hr : r = buildRecord loc url := (Option.some.inj h).symm
    rw [hr, sortTradingHours, if_neg hc]

/-- Witness for C9 on a location payload with an unsorted trading-hours
list. -/
theorem normalizer_idempotent_witness :
    normalizeRecord locEx ['u'] = some recEx ∧ sortTradingHours recEx = some recEx :=
  ⟨by rfl, normalizer_idempotent locEx ['u'] recEx (by rfl)⟩

lemma length_enumFrom_stores (fetch : List Char → Option PyDict) :
    ∀ (urls : List (List Char)) (k : Nat),
      ((List.enumFrom k urls).filterMap (fun p => processUrl fetch p.2)).length
        = urls.countP (fun u => (processUrl fetch u).isSome) := by
  intro urls
  induction urls with
  | nil => intro k; rfl
  | cons u rest ih =>
    intro k
    cases hp : processUrl fetch u with
    | none => simp [List.enumFrom, List.filterMap_cons, List.countP_cons, hp, ih (k + 1)]
    | some v => simp [List.enumFrom, List.filterMap_cons, List.countP_cons, hp, ih (k + 1)]

lemma length_enumFrom_errs (fetch : List Char → Option PyDict) :
    ∀ (urls : List (List Char)) (k : Nat),
      ((List.enumFrom k urls).filterMap
          (fun p => if (processUrl fetch p.2).isSome then none else some p)).length
        = urls.countP (fun u => !(processUrl fetch u).isSome) := by
  intro urls
  induction urls with
  | nil => intro k; rfl
  | cons u rest ih =>
    intro k
    cases hp : processUrl fetch u with
    | none => simp [List.enumFrom, List.filterMap_cons, List.countP_cons, hp, ih (k + 1)]
    | some v => simp [List.enumFrom, List.filterMap_cons, List.countP_cons, hp, ih (k + 1)]

/-- C8: every URL of the batch contributes exactly one success record or
exactly one recorded failure, whatever order the futures complete in: the
success count equals the number of URLs whose processing yields a record,
and successes plus failures equal the number of URLs. -/
theorem batch_partition_counts (urls : List (List Char))
    (fetch : List Char → Option PyDict) (completed : List (Nat × List Char))
    (hperm : completed.Perm (List.enumFrom 1 urls)) :
    (mainRun (.parsed urls) fetch completed).okCount
        = urls.countP (fun u => (processUrl fetch u).isSome)
    ∧ (mainRun (.parsed urls) fetch completed).okCount
        + (mainRun (.parsed urls) fetch completed).errCount = urls.length := by
  have hok : (mainRun (.parsed urls) fetch completed).okCount
      = (completed.filterMap (fun p => processUrl fetch p.2)).length := rfl
  have herr : (mainRun (.parsed urls) fetch completed).errCount
      = (completed.filterMap
          (fun p => if (processUrl fetch p.2).isSome then none else some p)).length := rfl
  rw [hok, herr, (hperm.filterMap (fun p => processUrl fetch p.2)).length_eq,
    (hperm.filterMap
      (fun p => if (processUrl fetch p.2).isSome then none else some p)).length_eq,
    length_enumFrom_stores fetch urls 1, length_enumFrom_errs fetch urls 1]
  refine ⟨rfl, ?_⟩
  have h := urls.length_eq_countP_add_countP (fun u => (processUrl fetch u).isSome)
  simp only [decide_not, Bool.decide_coe] at h
  omega

/-- Witness for C8: two URLs, both succeeding, completing in reversed
order. -/
theorem batch_partition_counts_witness :
    ([(2, ['b']), (1, ['a'])] : List (Nat × List Char)).Perm
        (List.enumFrom 1 [['a'], ['b']])
  ∧ ((mainRun (.parsed [['a'], ['b']]) fetchStrs [(2, ['b']), (1, ['a'])]).okCount
        = ([['a'], ['b']] : List (List Char)).countP
            (fun u => (processUrl fetchStrs u).isSome)
    ∧ (mainRun (.parsed [['a'], ['b']]) fetchStrs [(2, ['b']), (1, ['a'])]).okCount
        + (mainRun (.parsed [['a'], ['b']]) fetchStrs [(2, ['b']), (1, ['a'])]).errCount
        = ([['a'], ['b']] : List (List Char)).length) :=
  ⟨by decide,
   batch_partition_counts [['a'], ['b']] fetchStrs [(2, ['b']), (1, ['a'])] (by decide)⟩

/-- C4 counterexample: a batch with one record whose locationId is null
and one whose locationId is a string.  The final sort key for the null
record is Python None (the record contains the key, so the empty-string
default of line 191 never applies) and comparing it with a string raises
an uncaught TypeError: the run exits nonzero and prints no JSON at all
instead of sorting the null first. -/
theorem null_locationId_crashes_sort :
    (mainRun (.parsed [['a'], ['b']]) fetchMixed [(1, ['a']), (2, ['b'])]).exitCode = 1
  ∧ (mainRun (.parsed [['a'], ['b']]) fetchMixed [(1, ['a']), (2, ['b'])]).stdoutJson
      = none :=
  ⟨rfl, rfl⟩

/-- C4 as amended: whatever order the concurrent fetches complete in, if
every successfully normalized record carries a string locationId, the run
succeeds and the final output is exactly the success records sorted
ascending by locationId (records lacking the key sort by the empty-string
default, hence first); but a null locationId is not handled — it crashes
the sort instead of sorting first. -/
theorem output_sorted_by_locationId (urls : List (List Char))
    (fetch : List Char → Option PyDict) (completed : List (Nat × List Char))
    (hperm : completed.Perm (List.enumFrom 1 urls))
    (hstr : ∀ d ∈ completed.filterMap (fun p => processUrl fetch p.2),
        isStrJson (locKey d) = true) :
    ∃ out, (mainRun (.parsed urls) fetch completed).exitCode = 0
      ∧ (mainRun (.parsed urls) fetch completed).stdoutJson = some out
      ∧ out.Pairwise locLe
      ∧ out.Perm ((List.enumFrom 1 urls).filterMap (fun p => processUrl fetch p.2)) := by
  have hall : (completed.filterMap (fun p => processUrl fetch p.2)).all
      (fun d => isStrJson (locKey d)) = true := List.all_eq_true.mpr hstr
  have hsort : pySortedStores (completed.filterMap (fun p => processUrl fetch p.2))
      = some ((completed.filterMap (fun p => processUrl fetch p.2)).insertionSort locLe) := by
    rw [pySortedStores, if_pos (Bool.or_eq_true_iff.mpr (Or.inr hall))]
  refine ⟨(completed.filterMap (fun p => processUrl fetch p.2)).insertionSort locLe,
    ?_, ?_, ?_, ?_⟩
  · show (if (pySortedStores (completed.filterMap
        (fun p => processUrl fetch p.2))).isSome then 0 else 1) = 0
    rw [hsort]
    rfl
  · exact hsort
  · haveI : IsTotal PyDict locLe := ⟨fun a b => strLe_total (keyStr a) (keyStr b)⟩
    haveI : IsTrans PyDict locLe := ⟨fun _ _ _ hab hbc => strLe_trans hab hbc⟩
    exact List.sorted_insertionSort locLe _
  · exact (List.perm_insertionSort locLe _).trans (hperm.filterMap _)

/-- Witness for the amended C4: two string-keyed records, completion in
submission order. -/
theorem output_sorted_by_locationId_witness :
    ([(1, ['a']), (2, ['b'])] : List (Nat × List Char)).Perm
        (List.enumFrom 1 [['a'], ['b']])
  ∧ (∀ d ∈ ([(1, ['a']), (2, ['b'])] : List (Nat × List Char)).filterMap
        (fun p => processUrl fetchStrs p.2), isStrJson (locKey d) = true)
  ∧ (∃ out, (mainRun (.parsed [['a'], ['b']]) fetchStrs
        [(1, ['a']), (2, ['b'])]).exitCode = 0
      ∧ (mainRun (.parsed [['a'], ['b']]) fetchStrs
          [(1, ['a']), (2, ['b'])]).stdoutJson = some out
      ∧ out.Pairwise locLe
      ∧ out.Perm ((List.enumFrom 1 [['a'], ['b']]).filterMap
          (fun p => processUrl fetchStrs p.2))) :=
  ⟨by decide, by decide,
   output_sorted_by_locationId [['a'], ['b']] fetchStrs [(1, ['a']), (2, ['b'])]
     (by decide) (by decide)⟩

/-- C5 counterexample: with a sitemap file that exists but fails XML
parsing, the run does not terminate with a nonzero status — the parse
error is swallowed, the URL list is empty, and the run exits 0 after
printing an empty JSON array to stdout. -/
theorem malformed_sitemap_exits_zero :
    (mainRun .malformed (fun _ => none) []).exitCode = 0
  ∧ (mainRun .malformed (fun _ => none) []).stdoutJson = some [] :=
  ⟨rfl, rfl⟩

/-- C5 as amended: a malformed sitemap is caught inside
`extract_urls_from_sitemap`, which prints a diagnostic and returns an
empty URL list; the run then completes normally with exit status 0 and an
empty JSON array on stdout.  Only a missing sitemap file terminates the
run with exit status 1 and no JSON output. -/
theorem malformed_sitemap_empty_run (fetch : List Char → Option PyDict)
    (completed : List (Nat × List Char))
    (hperm : completed.Perm (List.enumFrom 1 (extractUrlsFromSitemap .malformed))) :
    mainRun .malformed fetch completed = ⟨0, some [], 0, 0⟩
  ∧ mainRun .missing fetch completed = ⟨1, none, 0, 0⟩ := by
  have hnil : completed = [] := hperm.eq_nil
  subst hnil
  exact ⟨rfl, rfl⟩

/-- Witness for the amended C5. -/
theorem malformed_sitemap_empty_run_witness :
    (([] : List (Nat × List Char)).Perm
        (List.enumFrom 1 (extractUrlsFromSitemap .malformed)))
  ∧ (mainRun .malformed (fun _ => none) [] = ⟨0, some [], 0, 0⟩
    ∧ mainRun .missing (fun _ => none) [] = ⟨1, none, 0, 0⟩) :=
  ⟨List.Perm.nil, malformed_sitemap_empty_run (fun _ => none) [] List.Perm.nil⟩

/-- C6 counterexample: the normalized record stores the fetched URL under
the key `url`, not `sourceUrl` — looking up `sourceUrl` finds nothing
while `url` holds the URL. -/
theorem record_key_is_url_not_sourceUrl :
    dictLookup (buildRecord locEx ['u']) ("sourceUrl".data) = none
  ∧ dictLookup (buildRecord locEx ['u']) kUrl = some (Json.str ['u']) :=
  ⟨rfl, rfl⟩

/-- C6 as amended: every record built by `get_store_details` has exactly
the fourteen keys locationId, publicName, phoneNumber, address1, address2,
address3, city, state, postcode, latitude, longitude, tradingHours,
typename and url, in that order, and every copied field whose source key
(identical to the field name except typename, read from __typename) is
absent from the location payload is present with an explicit null. -/
theorem record_schema_full (loc : PyDict) (url : List Char) :
    (buildRecord loc url).map Prod.fst = schemaKeys
  ∧ ∀ pr ∈ copiedFields, dictLookup loc pr.2 = none →
      dictLookup (buildRecord loc url) pr.1 = some Json.null := by
  refine ⟨rfl, ?_⟩
  intro pr hpr hnone
  fin_cases hpr <;> simp only [buildRecord, locGet, hnone] <;> rfl

/-- Witness for the amended C6: the example payload has no city, and the
record carries an explicit null for it. -/
theorem record_schema_full_witness :
    (buildRecord locEx ['u']).map Prod.fst = schemaKeys
  ∧ dictLookup (buildRecord locEx ['u']) kCity = some Json.null :=
  ⟨(record_schema_full locEx ['u']).1,
   (record_schema_full locEx ['u']).2 (kCity, kCity) (by decide) (by rfl)⟩

/-- C1: for every page text consisting of a prefix, the primary marker (at
its first occurrence), a well-formed JSON object — arbitrary nesting,
escaped quotes and escaped backslashes inside string literals included —
and a suffix, the brace-matching extractor returns exactly the substring
from the character after the marker to and including the closing brace
matching the object's opening brace. -/
theorem extractor_balanced_span (pre body suf : List Char) (hb : Gram 1 body)
    (hfirst : strFind (pre ++ pm ++ (lb :: body ++ [rb]) ++ suf) pm = some pre.length) :
    extractPayload (pre ++ pm ++ (lb :: body ++ [rb]) ++ suf)
      = .extracted (lb :: body ++ [rb]) := by
  have hdrop : (pre ++ pm ++ (lb :: body ++ [rb]) ++ suf).drop (pre.length + pm.length)
      = (lb :: body ++ [rb]) ++ suf := by
    rw [List.append_assoc (pre ++ pm)]
    exact List.drop_left' (by simp)
  have hlen2 : (lb :: body ++ [rb]).length = body.length + 2 := by
    simp only [List.length_cons, List.length_append, List.length_nil]
  simp only [extractPayload, hfirst, hdrop, scanBrace_obj_top body suf hb]
  rw [List.take_left' hlen2]

/-- Witness for C1 at a concrete instance: prefix `x`, the empty object,
suffix `y`. -/
theorem extractor_balanced_span_witness :
    strFind (['x'] ++ pm ++ (lb :: [] ++ [rb]) ++ ['y']) pm = some (['x'] : List Char).length
  ∧ extractPayload (['x'] ++ pm ++ (lb :: [] ++ [rb]) ++ ['y']) = .extracted (lb :: [] ++ [rb]) :=
  ⟨by decide, extractor_balanced_span ['x'] [] ['y'] Gram.objNil (by decide)⟩

/-- C2 counterexample: on text whose object never closes the code does not
produce an unbalanced-braces-typed failure — the slicing stage returns the
empty substring through its ordinary success path and the failure surfaces
only as the JSONDecodeError handler's outcome, the very same outcome a
balanced-but-invalid payload produces, so no UnbalancedBraces failure
distinct from a JSON syntax error exists anywhere in the code. -/
theorem unbalanced_conflated_with_syntax_error :
    getStoreDetails (pm ++ [lb]) [] = .jsonError
  ∧ extractPayload (pm ++ [lb]) = .extracted []
  ∧ getStoreDetails (pm ++ [lb, ':', rb]) [] = .jsonError :=
  ⟨rfl, rfl, rfl⟩

/-- C2 as amended: when the primary marker is present and the brace scan
exhausts the text without the depth returning to zero, the loop leaves
`end_idx = start_idx`, so the extractor yields the empty substring; the
subsequent `json.loads` fails on it and `get_store_details` returns `None`
through the JSONDecodeError handler — the URL is recorded as a failure,
the scan terminates, and no truncated nonempty substring is ever returned
as a success. -/
theorem unbalanced_empty_slice (html url : List Char) (i : Nat)
    (hfind : strFind html pm = some i)
    (hscan : scanBrace (html.drop (i + pm.length)) 0 false false = none) :
    extractPayload html = .extracted [] ∧ getStoreDetails html url = .jsonError := by
  have h1 : extractPayload html = .extracted [] := by
    simp only [extractPayload, hfind, hscan]
  refine ⟨h1, ?_⟩
  simp only [getStoreDetails, h1]
  rfl

/-- Witness for the amended C2 at the concrete unterminated page
`marker ++ lbrace`. -/
theorem unbalanced_empty_slice_witness :
    strFind (pm ++ [lb]) pm = some 0
  ∧ scanBrace ((pm ++ [lb]).drop (0 + pm.length)) 0 false false = none
  ∧ extractPayload (pm ++ [lb]) = .extracted []
  ∧ getStoreDetails (pm ++ [lb]) [] = .jsonError :=
  ⟨by decide, by decide,
   (unbalanced_empty_slice (pm ++ [lb]) [] 0 (by decide) (by decide)).1,
   (unbalanced_empty_slice (pm ++ [lb]) [] 0 (by decide) (by decide)).2⟩

/-- C7: on page text containing neither the primary nor the alternate
marker, `get_store_details` takes the dedicated no-marker path — the plain
`return None` of line 45 — and nothing else: no exception handler and no
other failure path is involved. -/
theorem marker_missing_typed_failure (html url : List Char)
    (h1 : strFind html pm = none) (h2 : strFind html am = none) :
    getStoreDetails html url = .noMarker := by
  simp only [getStoreDetails, extractPayload, h1, h2]

/-- Witness for C7 on a concrete markerless page. -/
theorem marker_missing_typed_failure_witness :
    strFind ['z', 'z'] pm = none
  ∧ strFind ['z', 'z'] am = none
  ∧ getStoreDetails ['z', 'z'] [] = .noMarker :=
  ⟨by decide, by decide, marker_missing_typed_failure ['z', 'z'] [] (by decide) (by decide)⟩
